import Mathlib

/-!
Verification development for the BTR-TOOLS Btrieve forensic reader
(`btrtools/core/btrieve.py`, `btrtools/cli/schema.py`, `btrtools/cli/export.py`).

A file is modelled as a `List Nat` of byte values (each `< 256`); a Python
string is modelled as a `List Nat` of Unicode codepoints.  The latin-1 codec
maps byte `b` to codepoint `b`, so decoding is the identity on the underlying
numbers.  All claims below concern files that exist and are readable, so the
embedding takes the in-memory byte sequence directly; `os.path.exists` /
read-failure branches of the source correspond to inputs outside this model.
-/

namespace BtrTools

/-- Btrieve v5 page size (`BtrieveAnalyzer.PAGE_SIZE`). -/
def PAGE_SIZE : Nat := 4096

/-- Header size of a data page (`BtrieveAnalyzer.HEADER_SIZE`). -/
def HEADER_SIZE : Nat := 16

/-- Number of File Control Record pages (`BtrieveAnalyzer.FCR_PAGES`). -/
def FCR_PAGES : Nat := 2

/-- Candidate record sizes tested by the detector
(`BtrieveAnalyzer.COMMON_RECORD_SIZES`). -/
def COMMON_RECORD_SIZES : List Nat := [32, 64, 128, 256, 512, 1024]

/-! ### Python character classes, restricted to the latin-1 codepoint range

Records are decoded with latin-1, so every codepoint that ever reaches these
predicates is `< 256`.  The definitions below spell out Python's `str`
predicates on that range. -/

/-- Python `str.isdigit` on latin-1 codepoints: ASCII digits plus the
superscripts one, two, three (¹ ² ³). -/
def pyIsDigit (c : Nat) : Bool :=
  decide (48 ≤ c ∧ c ≤ 57) || decide (c = 178 ∨ c = 179 ∨ c = 185)

/-- Python `str.isalpha` on latin-1 codepoints: ASCII letters, ª µ º and the
accented letter blocks (excluding × and ÷). -/
def pyIsAlpha (c : Nat) : Bool :=
  decide (65 ≤ c ∧ c ≤ 90) || decide (97 ≤ c ∧ c ≤ 122) ||
  decide (c = 170 ∨ c = 181 ∨ c = 186) ||
  decide (192 ≤ c ∧ c ≤ 214) || decide (216 ≤ c ∧ c ≤ 246) ||
  decide (248 ≤ c ∧ c ≤ 255)

/-- Python `str.isspace` on latin-1 codepoints: TAB..CR, FS/GS/RS/US, space,
NEL (0x85) and NBSP (0xA0). -/
def pyIsSpace (c : Nat) : Bool :=
  decide (9 ≤ c ∧ c ≤ 13) || decide (28 ≤ c ∧ c ≤ 32) ||
  decide (c = 133 ∨ c = 160)

/-- Python `str.isprintable` on latin-1 codepoints: ASCII printable range plus
the high latin-1 block, minus NBSP (0xA0) and the soft hyphen (0xAD). -/
def pyIsPrintable (c : Nat) : Bool :=
  decide (32 ≤ c ∧ c ≤ 126) || decide (161 ≤ c ∧ c ≤ 255 ∧ c ≠ 173)

/-- Word character for the `re` module's `\w` and word boundaries `\b`, on
latin-1 codepoints: alphanumerics (Python sense), underscore and the vulgar
fractions ¼ ½ ¾. -/
def reIsWord (c : Nat) : Bool :=
  pyIsAlpha c || pyIsDigit c || decide (c = 95 ∨ c = 188 ∨ c = 189 ∨ c = 190)

/-- The `re` module's `\d` on latin-1 codepoints: only ASCII digits (category
Nd). -/
def reIsDigit (c : Nat) : Bool := decide (48 ≤ c ∧ c ≤ 57)

/-- The `re` module's `\s` on latin-1 codepoints: same set as
`str.isspace`. -/
def reIsSpace (c : Nat) : Bool := pyIsSpace c

/-- `bytes.decode("latin-1")`: maps byte `b` to codepoint `b`.  Total on every
byte sequence — latin-1 has no invalid bytes, which is why the
`<decode_error>` fallback of `_create_record` can never be taken. -/
def decodeLatin1 (bs : List Nat) : List Nat := bs

/-- Python `str.rstrip("\x00")`: remove trailing NUL codepoints. -/
def pyRstripNull (s : List Nat) : List Nat :=
  ((s.reverse.dropWhile fun c => c == 0)).reverse

/-- Python `str.strip()`: remove leading and trailing whitespace. -/
def pyStrip (s : List Nat) : List Nat :=
  (((s.dropWhile fun c => pyIsSpace c).reverse.dropWhile
      fun c => pyIsSpace c)).reverse

/-- Python `str.ljust(n)`: right-pad with spaces to length `n`. -/
def pyLjust (s : List Nat) (n : Nat) : List Nat :=
  s ++ List.replicate (n - s.length) 32

/-- `bytes.hex()` as the list of nibble values, two per byte. -/
def hexNibbles (bs : List Nat) : List Nat :=
  bs.flatMap fun b => [b / 16 % 16, b % 16]

/-! ### A small backtracking regex engine

`re.search` and `re.findall` from CPython are used by the source for field
extraction and content classification.  `RE` is the abstract syntax of the
pattern fragment actually used there: character classes, concatenation,
ordered alternation, greedy counted repetition and word boundaries.  Matching
is leftmost, greedy with backtracking, in continuation-passing style; `fuel`
bounds the recursion depth and is chosen large enough for every concrete
evaluation in this file. -/

inductive RE where
  | eps : RE
  | cls (f : Nat → Bool) : RE
  | seq (a b : RE) : RE
  | alt (a b : RE) : RE
  | rep (a : RE) (lo : Nat) (hi : Option Nat) : RE
  | wordB : RE

/-- `\b` holds between `prev` (codepoint just before the current position,
`none` at the start of the text) and the first remaining codepoint. -/
def atWordBoundary (prev : Option Nat) (s : List Nat) : Bool :=
  let l := match prev with | none => false | some c => reIsWord c
  let r := match s.head? with | none => false | some c => reIsWord c
  l != r

/-- Backtracking matcher.  `k` is the success continuation receiving the
codepoint preceding the rest of the input and the remaining input; the result
is the remaining input after the first overall success. -/
def reMatch : Nat → RE → Option Nat → List Nat →
    (Option Nat → List Nat → Option (List Nat)) → Option (List Nat)
  | 0, _, _, _, _ => none
  | _ + 1, .eps, prev, s, k => k prev s
  | _ + 1, .cls f, _, s, k =>
    match s with
    | [] => none
    | c :: rest => if f c then k (some c) rest else none
  | fuel + 1, .seq a b, prev, s, k =>
    reMatch fuel a prev s fun p' s' => reMatch fuel b p' s' k
  | fuel + 1, .alt a b, prev, s, k =>
    match reMatch fuel a prev s k with
    | some r => some r
    | none => reMatch fuel b prev s k
  | fuel + 1, .rep a lo hi, prev, s, k =>
    if hi = some 0 then k prev s
    else
      match lo with
      | n + 1 =>
        reMatch fuel a prev s fun p' s' =>
          reMatch fuel (.rep a n (hi.map fun h => h - 1)) p' s' k
      | 0 =>
        match reMatch fuel a prev s (fun p' s' =>
            reMatch fuel (.rep a 0 (hi.map fun h => h - 1)) p' s' k) with
        | some r => some r
        | none => k prev s
  | _ + 1, .wordB, prev, s, k =>
    if atWordBoundary prev s then k prev s else none

/-- Fuel that is ample for every pattern in this file on input `s`. -/
def reFuel (s : List Nat) : Nat := 16 * s.length + 64

/-- Try to match `re` at the current position; return the remaining input. -/
def reMatchHere (re : RE) (prev : Option Nat) (s : List Nat) :
    Option (List Nat) :=
  reMatch (reFuel s) re prev s fun _ rest => some rest

/-- `re.search`: scan positions left to right, return the first matched
substring (all source patterns capture exactly the whole match, so group 1
equals the match). -/
def reSearchAux : RE → Option Nat → List Nat → Option (List Nat)
  | re, prev, s =>
    match reMatchHere re prev s with
    | some rest => some (s.take (s.length - rest.length))
    | none =>
      match s with
      | [] => none
      | c :: rest => reSearchAux re (some c) rest

/-- `re.search` from the start of the text. -/
def reSearch (re : RE) (s : List Nat) : Option (List Nat) :=
  reSearchAux re none s

/-- `re.findall` match count (the source only ever takes `len` of the result).
Non-overlapping scan: after a non-empty match resume at its end, otherwise
advance one position. -/
def reCountAux : Nat → RE → Option Nat → List Nat → Nat
  | 0, _, _, _ => 0
  | fuel + 1, re, prev, s =>
    match reMatchHere re prev s with
    | some rest =>
      if rest.length < s.length then
        1 + reCountAux fuel re
          ((s.take (s.length - rest.length)).getLast? ) rest
      else
        match s with
        | [] => 1
        | c :: tl => 1 + reCountAux fuel re (some c) tl
    | none =>
      match s with
      | [] => 0
      | c :: tl => reCountAux fuel re (some c) tl

/-- `len(re.findall(re, s))`. -/
def reCount (re : RE) (s : List Nat) : Nat :=
  reCountAux (s.length + 1) re none s

/-! ### The concrete patterns of the source -/

/-- A single literal codepoint. -/
def reChr (c : Nat) : RE := .cls fun x => x == c

/-- A literal codepoint, case-insensitively (ASCII letters only, which covers
the `re.IGNORECASE` uses of the source). -/
def reChrCI (c : Nat) : RE :=
  .cls fun x => x == c || (65 ≤ c && c ≤ 90 && x == c + 32) ||
    (97 ≤ c && c ≤ 122 && x == c - 32)

/-- Concatenation of a list of fragments. -/
def reCat (l : List RE) : RE := l.foldr .seq .eps

/-- A literal string (given as codepoints). -/
def reLit (l : List Nat) : RE := reCat (l.map reChr)

/-- Ordered alternation of a non-empty list (first alternative preferred). -/
def reAlts : List RE → RE
  | [] => .eps
  | [r] => r
  | r :: rest => .alt r (reAlts rest)

/-- Codepoints of a string. -/
def strCodes (s : String) : List Nat := s.toList.map Char.toNat

/-- `[A-Z]` (the literal ASCII range used by the source patterns). -/
def reUpper : RE := .cls fun c => decide (65 ≤ c ∧ c ≤ 90)

/-- `\b([A-Z]{3,4})\b` — provider code. -/
def patProviderCode : RE :=
  reCat [.wordB, .rep reUpper 3 (some 4), .wordB]

/-- `P\.?O\.?\s*Box\s+\d+[A-Z]?`, compiled with `re.IGNORECASE` — address. -/
def patAddress : RE :=
  reCat [reChrCI 80, .rep (reChr 46) 0 (some 1),
    reChrCI 79, .rep (reChr 46) 0 (some 1),
    .rep (.cls reIsSpace) 0 none,
    reChrCI 66, reChrCI 111, reChrCI 120,
    .rep (.cls reIsSpace) 1 none,
    .rep (.cls reIsDigit) 1 none,
    .rep reUpper 0 (some 1)]

/-- The 50 US state codes, in the source's alternation order. -/
def stateCodes : List String :=
  ["AL", "AK", "AZ", "AR", "CA", "CO", "CT", "DE", "FL", "GA", "HI", "ID",
   "IL", "IN", "IA", "KS", "KY", "LA", "ME", "MD", "MA", "MI", "MN", "MS",
   "MO", "MT", "NE", "NV", "NH", "NJ", "NM", "NY", "NC", "ND", "OH", "OK",
   "OR", "PA", "RI", "SC", "SD", "TN", "TX", "UT", "VT", "VA", "WA", "WV",
   "WI", "WY"]

/-- `\b(AL|AK|...|WY)\b` — state. -/
def patState : RE :=
  reCat [.wordB, reAlts (stateCodes.map fun s => reLit (strCodes s)), .wordB]

/-- `\b(\d{5}(?:-\d{4})?)\b` — ZIP code. -/
def patZip : RE :=
  reCat [.wordB, .rep (.cls reIsDigit) 5 (some 5),
    .rep (reCat [reChr 45, .rep (.cls reIsDigit) 4 (some 4)]) 0 (some 1),
    .wordB]

/-- `\b(800\d{7,10})\b` — phone. -/
def patPhone : RE :=
  reCat [.wordB, reLit (strCodes "800"), .rep (.cls reIsDigit) 7 (some 10),
    .wordB]

/-- `\b(D\d{4})\b` — procedure code. -/
def patProcedure : RE :=
  reCat [.wordB, reChr 68, .rep (.cls reIsDigit) 4 (some 4), .wordB]

/-- `\b(\d+\.\d{2})\b` — amount. -/
def patAmount : RE :=
  reCat [.wordB, .rep (.cls reIsDigit) 1 none, reChr 46,
    .rep (.cls reIsDigit) 2 (some 2), .wordB]

/-- `BtrieveAnalyzer._extract_basic_fields`: the first match of each named
pattern, empty when absent (in every source pattern group 1 spans the whole
match). -/
def extractBasicFields (text : List Nat) : List (String × List Nat) :=
  let get := fun (p : RE) => (reSearch p text).getD []
  [("provider_code", get patProviderCode),
   ("address", get patAddress),
   ("state", get patState),
   ("zip_code", get patZip),
   ("phone", get patPhone),
   ("procedure_code", get patProcedure),
   ("amount", get patAmount)]

/-! ### Records (`BtrieveRecord`, `BtrieveAnalyzer._create_record`) -/

/-- `BtrieveRecord`: one extracted record.  `decoded_text` is a codepoint
list; `hex_dump` is the nibble sequence of `bytes.hex()`. -/
structure BtrieveRecord where
  record_num : Nat
  record_size : Nat
  raw_bytes : List Nat
  hex_dump : List Nat
  decoded_text : List Nat
  printable_chars : Nat
  has_digits : Bool
  has_alpha : Bool
  extracted_fields : List (String × List Nat)
deriving DecidableEq, Inhabited

/-- `BtrieveAnalyzer._create_record`.  The latin-1 decode is total, so the
source's `<decode_error>` fallback is unreachable and does not appear. -/
def createRecord (record_num record_size : Nat) (record_bytes : List Nat) :
    BtrieveRecord :=
  let decoded_text := pyRstripNull (decodeLatin1 record_bytes)
  { record_num := record_num
    record_size := record_size
    raw_bytes := record_bytes
    hex_dump := hexNibbles record_bytes
    decoded_text := decoded_text
    printable_chars := decoded_text.countP fun c => pyIsPrintable c
    has_digits := decoded_text.any fun c => pyIsDigit c
    has_alpha := decoded_text.any fun c => pyIsAlpha c
    extracted_fields := extractBasicFields decoded_text }

/-! ### Record extraction (`BtrieveAnalyzer.extract_records`) -/

/-- Errors of `btrtools.utils.logging`. -/
inductive BtrError where
  | fileError : BtrError
  | dataError : BtrError
  | validationError : BtrError
  | configError : BtrError
deriving DecidableEq

instance {ε α : Type} [DecidableEq ε] [DecidableEq α] :
    DecidableEq (Except ε α) := fun x y =>
  match x, y with
  | .error a, .error b =>
    if h : a = b then isTrue (by rw [h]) else isFalse (by simp [h])
  | .error _, .ok _ => isFalse (by simp)
  | .ok _, .error _ => isFalse (by simp)
  | .ok a, .ok b =>
    if h : a = b then isTrue (by rw [h]) else isFalse (by simp [h])

/-- The `while max_records is None or record_num <= max_records` guard. -/
def numOk (max_records : Option Nat) (record_num : Nat) : Bool :=
  match max_records with
  | none => true
  | some m => record_num ≤ m

/-- The read loop of `extract_records`: read `record_size` bytes at a time
from `data`, stop on a short read or when the cap is exhausted.  The
`0 < record_size` conjunct only serves termination; the caller has already
rejected `record_size ≤ 0`. -/
def extractLoop (record_size : Nat) (max_records : Option Nat)
    (data : List Nat) (record_num : Nat) : List BtrieveRecord :=
  if h : 0 < record_size ∧ record_size ≤ data.length ∧
      numOk max_records record_num then
    createRecord record_num record_size (data.take record_size) ::
      extractLoop record_size max_records (data.drop record_size)
        (record_num + 1)
  else
    []
termination_by data.length
decreasing_by simp [List.length_drop]; omega

/-- `BtrieveAnalyzer.extract_records` for an existing, readable file `file`:
reject `record_size ≤ 0` with a validation error, then walk the data region
(the bytes from offset `FCR_PAGES * PAGE_SIZE` on). -/
def extract_records (file : List Nat) (record_size : Int)
    (max_records : Option Nat) : Except BtrError (List BtrieveRecord) :=
  if record_size ≤ 0 then
    .error .validationError
  else
    .ok (extractLoop record_size.toNat max_records
      (file.drop (FCR_PAGES * PAGE_SIZE)) 1)

/-! ### Quality scoring (`BtrieveAnalyzer._calculate_quality_score`) -/

/-- `_calculate_quality_score`: weighted score of a record set, a rational in
`[0, 100]`. -/
def calculateQualityScore (records : List BtrieveRecord) : ℚ :=
  if records = [] then 0
  else
    let total_records : ℚ := records.length
    let text_records : ℚ :=
      records.countP fun r => !(pyStrip r.decoded_text).isEmpty
    let digit_records : ℚ := records.countP fun r => r.has_digits
    let alpha_records : ℚ := records.countP fun r => r.has_alpha
    let avg_printable : ℚ :=
      (records.map fun r => (r.printable_chars : ℚ)).sum / total_records
    (text_records / total_records) * 30 +
      (digit_records / total_records) * 20 +
      (alpha_records / total_records) * 20 +
      min (avg_printable / 50) 1 * 30

/-! ### Record-size detection (`BtrieveAnalyzer.detect_record_size`) -/

/-- The score a candidate size obtains on `file` inside the detector: extract
at most 100 records and score them (an empty extraction scores 0). -/
def qualityAt (file : List Nat) (record_size : Nat) : ℚ :=
  calculateQualityScore
    (extractLoop record_size (some 100) (file.drop (FCR_PAGES * PAGE_SIZE)) 1)

/-- The candidate loop of `detect_record_size`: try each size, skip sizes that
yield no records, keep the strictly greater score.  Exceptions inside the
Python loop are caught and skipped; in this model `extract_records` on a
positive size never fails, so the catch corresponds to the `.error` arm. -/
def detectLoop (file : List Nat) :
    List Nat → Nat × ℚ → Nat × ℚ
  | [], best => best
  | record_size :: rest, (best_size, best_score) =>
    match extract_records file record_size (some 100) with
    | .error _ => detectLoop file rest (best_size, best_score)
    | .ok records =>
      if records = [] then detectLoop file rest (best_size, best_score)
      else
        let score := calculateQualityScore records
        if best_score < score then detectLoop file rest (record_size, score)
        else detectLoop file rest (best_size, best_score)

/-- `BtrieveAnalyzer.detect_record_size` for an existing readable file, with
the default `max_records = 100`: raise a data error when the best score is
still `0.0`, otherwise return `(best_size, best_score / 100)`. -/
def detect_record_size (file : List Nat) : Except BtrError (Nat × ℚ) :=
  let best := detectLoop file COMMON_RECORD_SIZES (64, 0)
  if best.2 = 0 then .error .dataError
  else .ok (best.1, best.2 / 100)

/-! ### Content classification
(`BtrieveAnalyzer.analyze_file`, `BtrieveAnalyzer._classify_content_type`) -/

/-- `BtrieveFileInfo` (path fields dropped; they never influence the claims
below). -/
structure BtrieveFileInfo where
  file_size : Nat
  page_size : Nat := 4096
  header_size : Nat := 16
  fcr_pages : Nat := 2
  estimated_records : Option Nat := none
  detected_record_size : Option Nat := none
  content_type : String := "unknown"
  ascii_percentage : ℚ := 0
  digit_sequences : Nat := 0
  date_patterns : Nat := 0
  quality_score : ℚ := 0
deriving DecidableEq

/-- `\d{3,}` — digit sequences. -/
def patDigitSeq : RE := .rep (.cls reIsDigit) 3 none

/-- The three date patterns of `analyze_file`. -/
def patDates : List RE :=
  [reCat [.rep (.cls reIsDigit) 1 (some 2), reChr 47,
     .rep (.cls reIsDigit) 1 (some 2), reChr 47,
     .rep (.cls reIsDigit) 2 (some 4)],
   reCat [.rep (.cls reIsDigit) 4 (some 4), reChr 45,
     .rep (.cls reIsDigit) 1 (some 2), reChr 45,
     .rep (.cls reIsDigit) 1 (some 2)],
   reCat [.rep (.cls reIsDigit) 1 (some 2), reChr 45,
     .rep (.cls reIsDigit) 1 (some 2), reChr 45,
     .rep (.cls reIsDigit) 4 (some 4)]]

/-- The four insurance patterns of `_classify_content_type` (note: the
`P\.?O\.?...` pattern is *not* case-insensitive here, unlike §4.5's). -/
def patInsurance : List RE :=
  [patProviderCode,
   reCat [reChr 80, .rep (reChr 46) 0 (some 1), reChr 79,
     .rep (reChr 46) 0 (some 1), .rep (.cls reIsSpace) 0 none,
     reChr 66, reChr 111, reChr 120,
     .rep (.cls reIsSpace) 1 none, .rep (.cls reIsDigit) 1 none],
   patZip, patPhone]

/-- The two clinical patterns. -/
def patClinical : List RE := [patProcedure, patAmount]

/-- `(?:6,7,8,9,10|11,12,13,14,15)` — sequential index runs. -/
def patSequential : RE :=
  .alt (reLit (strCodes "6,7,8,9,10")) (reLit (strCodes "11,12,13,14,15"))

/-- The literal uppercase alphabet — character-set files. -/
def patCharset : RE := reLit (strCodes "ABCDEFGHIJKLMNOPQRSTUVWXYZ")

/-- `BtrieveAnalyzer._classify_content_type`: the classification ladder, first
match wins. -/
def classifyContentType (text : List Nat) (info : BtrieveFileInfo) : String :=
  let insurance_score := (patInsurance.map fun p => reCount p text).sum
  let clinical_score := (patClinical.map fun p => reCount p text).sum
  let sequential_score := reCount patSequential text
  let charset_score := reCount patCharset text
  if insurance_score > 10 then "insurance_providers"
  else if clinical_score > 5 then "clinical_data"
  else if sequential_score > 3 then "index_sequence"
  else if charset_score > 2 then "character_set"
  else if info.ascii_percentage < 1 then "binary_data"
  else if info.ascii_percentage > 50 then "text_data"
  else "mixed_data"

/-- `BtrieveAnalyzer.analyze_file` for an existing readable file.  When the
data region is empty the summary is returned immediately with its dataclass
defaults.  The `except`-branch that sets `analysis_failed` is unreachable in
this model (no pattern step can raise). -/
def analyze_file (file : List Nat) : BtrieveFileInfo :=
  let info : BtrieveFileInfo := { file_size := file.length }
  let data_pages := file.drop (FCR_PAGES * PAGE_SIZE)
  if data_pages.length = 0 then info
  else
    let ascii_count := data_pages.countP fun b => decide (32 ≤ b ∧ b ≤ 126)
    let info := { info with
      ascii_percentage := ((ascii_count : ℚ) / (data_pages.length : ℚ)) * 100 }
    -- `data_pages.decode("latin-1", errors="ignore")`: identity on codepoints
    let text := decodeLatin1 data_pages
    let info := { info with
      digit_sequences := reCount patDigitSeq text
      date_patterns := (patDates.map fun p => reCount p text).sum }
    { info with content_type := classifyContentType text info }

/-! ### Integrity checking (`BtrieveAnalyzer.check_integrity`) -/

/-- The integrity report dictionary. -/
structure IntegrityInfo where
  file_exists : Bool := false
  readable : Bool := false
  valid_size : Bool := false
  has_fcr_pages : Bool := false
  data_pages : Nat := 0
  corruption_detected : Bool := false
  corruption_details : List String := []
deriving DecidableEq

/-- `BtrieveAnalyzer.check_integrity` for an existing readable file of
contents `data` (the missing-file and unreadable branches of the source
return before this point and are outside the model). -/
def check_integrity (data : List Nat) : IntegrityInfo :=
  let info : IntegrityInfo := { file_exists := true, readable := true }
  let min_size := (FCR_PAGES + 1) * PAGE_SIZE
  let info :=
    if data.length ≥ min_size then { info with valid_size := true }
    else { info with
      corruption_details := info.corruption_details ++
        ["File too small: " ++ toString data.length ++ " < " ++
          toString min_size]
      corruption_detected := true }
  if data.length ≥ FCR_PAGES * PAGE_SIZE then
    { info with
      has_fcr_pages := true
      data_pages := (data.length - FCR_PAGES * PAGE_SIZE) /
        (PAGE_SIZE - HEADER_SIZE) }
  else info

/-! ### Positional field boundary detection (`btrtools/cli/schema.py`) -/

/-- Per-offset statistics (`position_stats[pos]`). -/
structure PosStats where
  ascii_count : Nat := 0
  digit_count : Nat := 0
  alpha_count : Nat := 0
  space_count : Nat := 0
  null_count : Nat := 0
  printable_count : Nat := 0
  total_records : Nat := 0
  unique_chars : List Nat := []
deriving DecidableEq

/-- Accumulate one codepoint into a position's statistics, following the
`elif` ladder of `_analyze_field_patterns`. -/
def addChar (st : PosStats) (c : Nat) : PosStats :=
  let st := { st with
    unique_chars := if c ∈ st.unique_chars then st.unique_chars
      else st.unique_chars ++ [c] }
  if c = 0 then { st with null_count := st.null_count + 1 }
  else if pyIsDigit c then { st with digit_count := st.digit_count + 1 }
  else if pyIsAlpha c then { st with alpha_count := st.alpha_count + 1 }
  else if pyIsSpace c then { st with space_count := st.space_count + 1 }
  else if pyIsPrintable c then
    { st with printable_count := st.printable_count + 1
              ascii_count := st.ascii_count + 1 }
  else st

/-- `_analyze_field_patterns` as a function of the offset.  The source builds
a dict whose keys are exactly `range(records[0].record_size)` and `
_detect_fields` only ever queries those keys, so the dict is modelled as a
total function; each record contributes the codepoint of its decoded text
right-padded with spaces (`ljust`). -/
def analyzeFieldPatterns (records : List BtrieveRecord) (pos : Nat) :
    PosStats :=
  let record_size := (records.headI).record_size
  records.foldl
    (fun st r => addChar st ((pyLjust r.decoded_text record_size).getD pos 32))
    { total_records := records.length }

/-- The position-typing ladder of `_detect_fields` (step 2 of §4.6). -/
def posTypeAt (stats : Nat → PosStats) (pos : Nat) : String :=
  let st := stats pos
  let total : ℚ := st.total_records
  let ascii_percent := ((st.ascii_count : ℚ) / total) * 100
  let digit_percent := ((st.digit_count : ℚ) / total) * 100
  let alpha_percent := ((st.alpha_count : ℚ) / total) * 100
  let null_percent := ((st.null_count : ℚ) / total) * 100
  if null_percent > 80 then "null_padding"
  else if digit_percent > 70 then "digits"
  else if alpha_percent > 50 then "alpha"
  else if ascii_percent > 50 then "text"
  else "mixed"

/-- A detected field (`_create_field_info`'s result dictionary). -/
structure FieldInfo where
  name : String
  type_tag : String
  position : Nat
  length : Nat
  ascii_percent : ℚ
  digit_percent : ℚ
  alpha_percent : ℚ
deriving DecidableEq

/-- `_infer_field_type_and_name`.  The Python `len(c) == 1` guards are
vacuously true (every element of `unique_chars` is one character). -/
def inferFieldTypeAndName (field_type : String) (length : Nat)
    (unique_chars : List Nat) (avg_digits : ℚ) : String × String :=
  if field_type = "digits" then
    if length = 5 ∧ avg_digits > 8 / 10 then ("zip_code", "ZIP_CODE")
    else if length ≥ 10 ∧ avg_digits > 9 / 10 then ("phone_number", "PHONE")
    else if length = 4 ∧ unique_chars.all (fun c => pyIsDigit c || c == 68)
      then ("procedure_code", "PROCEDURE_CODE")
    else ("digit_field_" ++ toString length, "DIGITS")
  else if field_type = "alpha" then
    if length = 2 ∧ unique_chars.all (fun c => pyIsAlpha c) then
      ("state_code", "STATE")
    else if length ≤ 4 ∧ unique_chars.all
        (fun c => decide (65 ≤ c ∧ c ≤ 90)) then
      ("provider_code", "PROVIDER_CODE")
    else ("alpha_field_" ++ toString length, "ALPHA")
  else if field_type = "text" then
    if length > 50 then ("description", "TEXT")
    else if length > 20 then ("address", "ADDRESS")
    else ("text_field_" ++ toString length, "TEXT")
  else ("field_" ++ toString length, "MIXED")

/-- `_create_field_info`: re-sum the statistics across the span and build the
descriptor; `none` when the length is zero, the run type is absent, or no
records were seen. -/
def createFieldInfo (start_pos length : Nat) (field_type : Option String)
    (stats : Nat → PosStats) : Option FieldInfo :=
  match field_type with
  | none => none
  | some ftype =>
    if length < 1 then none
    else
      let span := (List.range length).map fun i => stats (start_pos + i)
      let total_records := (span.getLastD {}).total_records
      let total_ascii := (span.map fun st => st.ascii_count).sum
      let total_digits := (span.map fun st => st.digit_count).sum
      let total_alpha := (span.map fun st => st.alpha_count).sum
      let unique_chars := span.foldl
        (fun acc st => acc ++ st.unique_chars.filter fun c => c ∉ acc) []
      if total_records = 0 then none
      else
        let nt := inferFieldTypeAndName ftype length unique_chars
          ((total_digits : ℚ) / (total_records : ℚ))
        some { name := nt.1
               type_tag := nt.2
               position := start_pos
               length := length
               ascii_percent :=
                 ((total_ascii : ℚ) / ((total_records * length : Nat) : ℚ)) * 100
               digit_percent :=
                 ((total_digits : ℚ) / ((total_records * length : Nat) : ℚ)) * 100
               alpha_percent :=
                 ((total_alpha : ℚ) / ((total_records * length : Nat) : ℚ)) * 100 }

/-- Close the current run `[start, stop)` and append its descriptor (the
`field_length > 0` guard plus `_create_field_info`'s filtering). -/
def closeRun (stats : Nat → PosStats) (fields : List FieldInfo)
    (start stop : Nat) (ctype : String) : List FieldInfo :=
  if 0 < stop - start then
    match createFieldInfo start (stop - start) (some ctype) stats with
    | some fi => fields ++ [fi]
    | none => fields
  else fields

/-- The segmentation walk of `_detect_fields` (step 3 of §4.6): `cur` is
`(current_field_start, current_field_type)`.  The `for pos in
range(record_size)` loop is driven by a structural counter `n` of remaining
iterations, with `pos + n = record_size`; at `n = 0` the loop has ended and
any still-open run is closed at `record_size`. -/
def segGo (stats : Nat → PosStats) (record_size : Nat) :
    Nat → Nat → List FieldInfo → Option (Nat × String) → List FieldInfo
  | 0, _, fields, cur =>
    match cur with
    | some (start, ctype) => closeRun stats fields start record_size ctype
    | none => fields
  | n + 1, pos, fields, cur =>
    let t := posTypeAt stats pos
    match cur with
    | none =>
      if t ≠ "null_padding" then
        segGo stats record_size n (pos + 1) fields (some (pos, t))
      else
        segGo stats record_size n (pos + 1) fields none
    | some (start, ctype) =>
      if t = "null_padding" ∨ t ≠ ctype then
        let fields := closeRun stats fields start pos ctype
        if t ≠ "null_padding" then
          segGo stats record_size n (pos + 1) fields (some (pos, t))
        else
          segGo stats record_size n (pos + 1) fields none
      else
        segGo stats record_size n (pos + 1) fields cur

/-- `_detect_fields`. -/
def detectFields (stats : Nat → PosStats) (record_size : Nat) :
    List FieldInfo :=
  segGo stats record_size record_size 0 [] none

/-! ### Export headers (`btrtools/cli/export.py`) -/

/-- Codepoint-lexicographic string order (Python `sorted` on `str`). -/
def strLe (a b : String) : Bool :=
  let rec go : List Nat → List Nat → Bool
    | [], _ => true
    | _ :: _, [] => false
    | x :: xs, y :: ys =>
      if x < y then true else if y < x then false else go xs ys
  go (strCodes a) (strCodes b)

/-- Insertion into a sorted list. -/
def strInsert (a : String) : List String → List String
  | [] => [a]
  | b :: rest => if strLe a b then a :: b :: rest else b :: strInsert a rest

/-- Python `sorted(...)` of a list of strings. -/
def strSort (l : List String) : List String := l.foldr strInsert []

/-- `sorted(list(field_names))`: the sorted union of every record's extracted
field names. -/
def sortedFieldNames (records : List BtrieveRecord) : List String :=
  strSort ((records.flatMap fun r => r.extracted_fields.map
    fun kv => kv.1).dedup)

/-- The header row written by `_export_csv` (its `all_fields`). -/
def csvHeaderFields (records : List BtrieveRecord) : List String :=
  ["record_num", "record_size", "decoded_text", "printable_chars",
   "has_digits", "has_alpha"] ++ sortedFieldNames records

/-- The header row written by `_export_excel` (its `all_fields`): note the
extra `raw_bytes` column absent from the CSV header. -/
def excelHeaderFields (records : List BtrieveRecord) : List String :=
  ["record_num", "record_size", "raw_bytes", "decoded_text",
   "printable_chars", "has_digits", "has_alpha"] ++ sortedFieldNames records

/-! ### Shared helpers for the theorems -/

/-- An all-NUL two-page FCR region, used to build concrete test files. -/
def fcrPad : List Nat := List.replicate (FCR_PAGES * PAGE_SIZE) 0

theorem drop_fcrPad (d : List Nat) :
    (fcrPad ++ d).drop (FCR_PAGES * PAGE_SIZE) = d := by
  simp [fcrPad]

theorem length_fcrPad_append (d : List Nat) :
    (fcrPad ++ d).length = FCR_PAGES * PAGE_SIZE + d.length := by
  simp [fcrPad]

theorem dropWhile_length_le {α : Type} (p : α → Bool) (l : List α) :
    (l.dropWhile p).length ≤ l.length := by
  induction l with
  | nil => simp
  | cons a l ih =>
    rw [List.dropWhile_cons]
    split
    · exact le_trans ih (by simp)
    · simp

theorem pyRstripNull_length_le (s : List Nat) :
    (pyRstripNull s).length ≤ s.length := by
  simpa [pyRstripNull] using
    dropWhile_length_le (fun c => c == 0) s.reverse

/-- One unfolding step of the extraction loop, with the dependent `if`
replaced by a plain one. -/
theorem extractLoop_unfold (R : Nat) (N : Option Nat) (data : List Nat)
    (num : Nat) :
    extractLoop R N data num =
      if 0 < R ∧ R ≤ data.length ∧ numOk N num then
        createRecord num R (data.take R) ::
          extractLoop R N (data.drop R) (num + 1)
      else [] := by
  rw [extractLoop]
  split <;> simp_all

/-- The number of records the loop emits: chunks available, capped by the
remaining record budget. -/
def extractCount (R : Nat) (N : Option Nat) (len num : Nat) : Nat :=
  match N with
  | none => len / R
  | some m => min (m + 1 - num) (len / R)

/-- Closed form of the extraction loop: record `i` (0-based) is numbered
`num + i` and carries the `R`-byte slice starting at offset `i * R`. -/
theorem extractLoop_eq_map (R : Nat) (hR : 0 < R) (N : Option Nat) :
    ∀ data num, extractLoop R N data num =
      (List.range (extractCount R N data.length num)).map
        fun i => createRecord (num + i) R ((data.drop (i * R)).take R) := by
  have main : ∀ (n : Nat) (data : List Nat), data.length ≤ n → ∀ num,
      extractLoop R N data num =
        (List.range (extractCount R N data.length num)).map
          fun i => createRecord (num + i) R ((data.drop (i * R)).take R) := by
    intro n
    induction n with
    | zero =>
      intro data hlen num
      have h0 : data.length = 0 := Nat.le_zero.mp hlen
      rw [extractLoop_unfold, if_neg (by omega)]
      cases N <;> simp [extractCount, h0]
    | succ n ih =>
      intro data hlen num
      rw [extractLoop_unfold]
      by_cases hnum : numOk N num = true
      · by_cases hle : R ≤ data.length
        · have hdiv : data.length / R = (data.length - R) / R + 1 := by
            rw [Nat.div_eq_sub_div hR hle]
          have hdrop : (data.drop R).length = data.length - R := by
            simp
          have hcount : extractCount R N data.length num =
              extractCount R N (data.drop R).length (num + 1) + 1 := by
            cases N with
            | none => simp [extractCount, hdrop, hdiv]
            | some m =>
              simp only [extractCount, hdrop, hdiv]
              simp only [numOk, decide_eq_true_eq] at hnum
              omega
          rw [if_pos ⟨hR, hle, hnum⟩, hcount, List.range_succ_eq_map,
            ih (data.drop R) (by simp; omega) (num + 1)]
          simp only [List.map_cons, List.map_map]
          congr 1
          · simp
          · apply List.map_congr_left
            intro i _
            have harg : ∀ a b (l1 l2 : List Nat), a = b → l1 = l2 →
                createRecord a R l1 = createRecord b R l2 := by
              intro a b l1 l2 hab hl
              rw [hab, hl]
            apply harg
            · simp [Nat.succ_eq_add_one]
              omega
            · rw [List.drop_drop]
              congr 1
              simp [Nat.succ_mul, Nat.mul_comm, Nat.add_comm]
        · have hdiv : data.length / R = 0 := Nat.div_eq_of_lt (by omega)
          rw [if_neg (by tauto)]
          cases N <;> simp [extractCount, hdiv]
      · rw [if_neg (by tauto)]
        cases N with
        | none => simp [numOk] at hnum
        | some m =>
          simp only [numOk, decide_eq_true_eq] at hnum
          have hz : m + 1 - num = 0 := by omega
          simp [extractCount, hz]
  intro data num
  exact main data.length data le_rfl num

/-! ### C3 — extraction returns exactly the fixed-size slices in file order -/

/-- C3: for every file, record size `R ≥ 1` and optional cap `N`,
`extract_records` succeeds and returns exactly
`k = min N ((file_size - 8192) / R)` records (no cap: `k = (file_size - 8192)
/ R`, and the subtraction truncates at zero); the `i`-th (0-based) record is
numbered `i + 1` and carries the `R`-byte slice of the file starting at
offset `8192 + i * R`, so records appear in file order and a trailing partial
slice is never emitted. -/
theorem extract_records_sliced (file : List Nat) (R : Int) (N : Option Nat)
    (hR : 1 ≤ R) :
    extract_records file R N =
      .ok ((List.range (extractCount R.toNat N
          (file.length - FCR_PAGES * PAGE_SIZE) 1)).map
        fun i => createRecord (i + 1) R.toNat
          ((file.drop (FCR_PAGES * PAGE_SIZE + i * R.toNat)).take R.toNat)) := by
  have hR0 : ¬ (R ≤ 0) := by omega
  have hRpos : 0 < R.toNat := by omega
  rw [extract_records, if_neg hR0,
    extractLoop_eq_map R.toNat hRpos N (file.drop (FCR_PAGES * PAGE_SIZE)) 1]
  congr 1
  rw [List.length_drop]
  apply List.map_congr_left
  intro i _
  rw [List.drop_drop, Nat.add_comm 1 i]

/-- Witness for C3 at a concrete file: two complete 2-byte records are
extracted, the trailing odd byte is dropped. -/
theorem extract_records_sliced_witness :
    (1 : Int) ≤ 2 ∧
      extract_records (fcrPad ++ [10, 20, 30, 40, 50]) 2 none =
        .ok ((List.range (extractCount (2 : Int).toNat none
            ((fcrPad ++ [10, 20, 30, 40, 50]).length -
              FCR_PAGES * PAGE_SIZE) 1)).map
          fun i => createRecord (i + 1) (2 : Int).toNat
            (((fcrPad ++ [10, 20, 30, 40, 50]).drop
              (FCR_PAGES * PAGE_SIZE + i * (2 : Int).toNat)).take
                (2 : Int).toNat)) :=
  ⟨by norm_num,
   extract_records_sliced (fcrPad ++ [10, 20, 30, 40, 50]) 2 none
     (by norm_num)⟩

/-! ### C7 — validation of the record size and the small-region edge case -/

/-- C7: `extract_records` rejects `R ≤ 0` with a validation error (no data is
read: the validation check precedes the read loop), and for `R ≥ 1` larger
than the data region it returns the empty record list without error. -/
theorem extract_records_edge_cases (file : List Nat) (R : Int)
    (N : Option Nat) :
    (R ≤ 0 → extract_records file R N = .error .validationError) ∧
    (1 ≤ R → ((file.drop (FCR_PAGES * PAGE_SIZE)).length : Int) < R →
      extract_records file R N = .ok []) := by
  constructor
  · intro h
    rw [extract_records, if_pos h]
  · intro h1 h2
    rw [extract_records, if_neg (by omega), extractLoop_unfold,
      if_neg (by push_neg; intro _ hle; omega)]

/-- Witness for C7: a 3-byte data region rejects `R = 0` and yields no
records at `R = 4`. -/
theorem extract_records_edge_cases_witness :
    ((0 : Int) ≤ 0 → extract_records (fcrPad ++ [1, 2, 3]) 0 none =
        .error .validationError) ∧
      ((1 : Int) ≤ 4 →
        (((fcrPad ++ [1, 2, 3]).drop (FCR_PAGES * PAGE_SIZE)).length : Int)
            < 4 →
        extract_records (fcrPad ++ [1, 2, 3]) 4 none = .ok []) :=
  ⟨(extract_records_edge_cases (fcrPad ++ [1, 2, 3]) 0 none).1,
   (extract_records_edge_cases (fcrPad ++ [1, 2, 3]) 4 none).2⟩

/-! ### C10 — the decode step is total -/

/-- C10: `_create_record`'s decode step cannot fail — latin-1 decoding is
total on bytes, so the `<decode_error>` fallback is unreachable and
`decoded_text` always equals the one-codepoint-per-byte decoding of
`raw_bytes` with trailing NULs removed; consequently the decoded text and its
printable-character count are bounded by the record size. -/
theorem create_record_decode_total (num R : Nat) (raw : List Nat)
    (h : raw.length = R) :
    (createRecord num R raw).decoded_text =
        pyRstripNull (decodeLatin1 raw) ∧
      (createRecord num R raw).decoded_text.length ≤ R ∧
      (createRecord num R raw).printable_chars ≤ R := by
  refine ⟨rfl, ?_, ?_⟩
  · simpa [createRecord, decodeLatin1, h] using pyRstripNull_length_le raw
  · calc (createRecord num R raw).printable_chars
        ≤ (createRecord num R raw).decoded_text.length :=
          List.countP_le_length _
    _ ≤ R := by
          simpa [createRecord, decodeLatin1, h] using pyRstripNull_length_le raw

/-- Witness for C10 at a concrete 4-byte record ending in NULs. -/
theorem create_record_decode_total_witness :
    ([65, 0, 66, 0] : List Nat).length = 4 ∧
      ((createRecord 7 4 [65, 0, 66, 0]).decoded_text =
          pyRstripNull (decodeLatin1 [65, 0, 66, 0]) ∧
        (createRecord 7 4 [65, 0, 66, 0]).decoded_text.length ≤ 4 ∧
        (createRecord 7 4 [65, 0, 66, 0]).printable_chars ≤ 4) :=
  ⟨by decide, create_record_decode_total 7 4 [65, 0, 66, 0] (by decide)⟩

/-! ### C6 — quality score bounds and formula -/

theorem avg_printable_nonneg (records : List BtrieveRecord) :
    (0 : ℚ) ≤ (records.map fun r => (r.printable_chars : ℚ)).sum := by
  apply List.sum_nonneg
  intro x hx
  obtain ⟨r, _, rfl⟩ := List.mem_map.mp hx
  positivity

theorem calculateQualityScore_nonneg (records : List BtrieveRecord) :
    0 ≤ calculateQualityScore records := by
  by_cases h : records = []
  · simp [calculateQualityScore, h]
  · rw [calculateQualityScore, if_neg h]
    have hn : (0 : ℚ) < (records.length : ℚ) := by
      have := List.length_pos.mpr h
      exact_mod_cast this
    have h1 : (0 : ℚ) ≤ (records.countP fun r =>
        !(pyStrip r.decoded_text).isEmpty : ℚ) := by positivity
    have h2 : (0 : ℚ) ≤ (records.countP fun r => r.has_digits : ℚ) := by
      positivity
    have h3 : (0 : ℚ) ≤ (records.countP fun r => r.has_alpha : ℚ) := by
      positivity
    have h4 := avg_printable_nonneg records
    have hmin : (0 : ℚ) ≤
        min ((records.map fun r => (r.printable_chars : ℚ)).sum /
          (records.length : ℚ) / 50) 1 := by
      apply le_min _ (by norm_num)
      positivity
    have ht : (0 : ℚ) ≤ (records.countP fun r =>
        !(pyStrip r.decoded_text).isEmpty : ℚ) / (records.length : ℚ) :=
      div_nonneg h1 hn.le
    have hd : (0 : ℚ) ≤ (records.countP fun r => r.has_digits : ℚ) /
        (records.length : ℚ) := div_nonneg h2 hn.le
    have ha : (0 : ℚ) ≤ (records.countP fun r => r.has_alpha : ℚ) /
        (records.length : ℚ) := div_nonneg h3 hn.le
    dsimp only
    nlinarith [ht, hd, ha, hmin]

theorem countP_frac_le_one (records : List BtrieveRecord)
    (h : records ≠ []) (p : BtrieveRecord → Bool) :
    (records.countP p : ℚ) / (records.length : ℚ) ≤ 1 := by
  have hn : (0 : ℚ) < (records.length : ℚ) := by
    have := List.length_pos.mpr h
    exact_mod_cast this
  rw [div_le_one hn]
  exact_mod_cast List.countP_le_length p

theorem calculateQualityScore_le_100 (records : List BtrieveRecord) :
    calculateQualityScore records ≤ 100 := by
  by_cases h : records = []
  · simp [calculateQualityScore, h]
  · rw [calculateQualityScore, if_neg h]
    have ht := countP_frac_le_one records h
      fun r => !(pyStrip r.decoded_text).isEmpty
    have hd := countP_frac_le_one records h fun r => r.has_digits
    have ha := countP_frac_le_one records h fun r => r.has_alpha
    have hmin : min ((records.map fun r => (r.printable_chars : ℚ)).sum /
        (records.length : ℚ) / 50) 1 ≤ 1 := min_le_right _ _
    dsimp only
    nlinarith [ht, hd, ha, hmin]

/-- C6: the quality score of any record list lies in `[0, 100]`; the empty
list scores exactly `0`, and a non-empty list scores
`30 * text_frac + 20 * digit_frac + 20 * alpha_frac +
30 * min (avg_printable / 50) 1`. -/
theorem quality_score_formula (records : List BtrieveRecord) :
    0 ≤ calculateQualityScore records ∧
      calculateQualityScore records ≤ 100 ∧
      calculateQualityScore [] = 0 ∧
      (records ≠ [] →
        calculateQualityScore records =
          30 * ((records.countP fun r =>
              !(pyStrip r.decoded_text).isEmpty : ℚ) / records.length) +
            20 * ((records.countP fun r => r.has_digits : ℚ) /
              records.length) +
            20 * ((records.countP fun r => r.has_alpha : ℚ) /
              records.length) +
            30 * min (((records.map fun r => (r.printable_chars : ℚ)).sum /
              records.length) / 50) 1) := by
  refine ⟨calculateQualityScore_nonneg records,
    calculateQualityScore_le_100 records, by simp [calculateQualityScore],
    fun h => ?_⟩
  rw [calculateQualityScore, if_neg h]
  dsimp only
  ring

/-- Witness for C6 at a singleton record list. -/
theorem quality_score_formula_witness :
    [createRecord 1 2 [65, 66]] ≠ ([] : List BtrieveRecord) ∧
      calculateQualityScore [createRecord 1 2 [65, 66]] =
        30 * (([createRecord 1 2 [65, 66]].countP fun r =>
            !(pyStrip r.decoded_text).isEmpty : ℚ) /
          (List.length [createRecord 1 2 [65, 66]])) +
        20 * (([createRecord 1 2 [65, 66]].countP fun r =>
            r.has_digits : ℚ) / (List.length [createRecord 1 2 [65, 66]])) +
        20 * (([createRecord 1 2 [65, 66]].countP fun r =>
            r.has_alpha : ℚ) / (List.length [createRecord 1 2 [65, 66]])) +
        30 * min ((([createRecord 1 2 [65, 66]].map fun r =>
            (r.printable_chars : ℚ)).sum /
          (List.length [createRecord 1 2 [65, 66]])) / 50) 1 :=
  ⟨by simp, (quality_score_formula [createRecord 1 2 [65, 66]]).2.2.2
    (by simp)⟩

/-! ### C8 — integrity report -/

/-- C8: for every existing readable file of contents `data`, the integrity
report marks `valid_size` exactly when the file spans the two FCR pages plus
at least one data page (12288 bytes); whenever the FCR pages are present the
data-page count is `(size - 8192) / 4080`; and corruption is reported exactly
when one of the four predicates fails (for an existing readable file this
reduces to `valid_size`). -/
theorem check_integrity_report (data : List Nat) :
    ((check_integrity data).valid_size = true ↔
      (FCR_PAGES + 1) * PAGE_SIZE ≤ data.length) ∧
    (FCR_PAGES * PAGE_SIZE ≤ data.length →
      (check_integrity data).data_pages =
        (data.length - FCR_PAGES * PAGE_SIZE) / (PAGE_SIZE - HEADER_SIZE)) ∧
    ((check_integrity data).corruption_detected = true ↔
      ¬((check_integrity data).file_exists = true ∧
        (check_integrity data).readable = true ∧
        (check_integrity data).valid_size = true ∧
        (check_integrity data).has_fcr_pages = true)) := by
  rw [check_integrity]
  by_cases hv : data.length ≥ (FCR_PAGES + 1) * PAGE_SIZE
  · have hf : data.length ≥ FCR_PAGES * PAGE_SIZE := by
      rw [PAGE_SIZE, FCR_PAGES] at *
      omega
    simp [hv, hf]
  · by_cases hf : data.length ≥ FCR_PAGES * PAGE_SIZE
    · simp [hv, hf]
    · simp [hv, hf]

/-- Witness for C8 on a file of exactly two FCR pages plus 4080 bytes. -/
theorem check_integrity_report_witness :
    FCR_PAGES * PAGE_SIZE ≤ (fcrPad ++ List.replicate 4080 7).length ∧
      (check_integrity (fcrPad ++ List.replicate 4080 7)).data_pages =
        ((fcrPad ++ List.replicate 4080 7).length - FCR_PAGES * PAGE_SIZE) /
          (PAGE_SIZE - HEADER_SIZE) :=
  ⟨by rw [length_fcrPad_append]; exact Nat.le_add_right _ _,
   (check_integrity_report (fcrPad ++ List.replicate 4080 7)).2.1
     (by rw [length_fcrPad_append]; exact Nat.le_add_right _ _)⟩

/-! ### C2 — empty data region -/

/-- C2 counterexample: on a 100-byte file (so size ≥ 8192 fails and the data
region is empty) `analyze_file` returns `ascii_percentage = 0` as claimed but
`content_type = "unknown"` — the dataclass default — which is neither
`mixed_data` nor `binary_data` and lies outside the closed `ContentType`
set. -/
theorem analyze_file_empty_region_cex :
    (analyze_file (List.replicate 100 65)).ascii_percentage = 0 ∧
      (analyze_file (List.replicate 100 65)).content_type ≠ "mixed_data" ∧
      (analyze_file (List.replicate 100 65)).content_type ≠ "binary_data" ∧
      (analyze_file (List.replicate 100 65)).content_type ∉
        ["insurance_providers", "clinical_data", "index_sequence",
         "character_set", "binary_data", "text_data", "mixed_data",
         "analysis_failed"] := by
  decide

/-- C2 (amended): for every existing readable file whose data region is
empty, `analyze_file` returns a summary with `ascii_percentage = 0` — but its
`content_type` is the dataclass default `"unknown"`, not `mixed_data` or
`binary_data`. -/
theorem analyze_file_empty_region (file : List Nat)
    (h : file.length ≤ FCR_PAGES * PAGE_SIZE) :
    (analyze_file file).ascii_percentage = 0 ∧
      (analyze_file file).content_type = "unknown" := by
  have h0 : (file.drop (FCR_PAGES * PAGE_SIZE)).length = 0 := by
    rw [List.length_drop]
    omega
  constructor <;> simp [analyze_file, h0]

/-- Witness for C2 (amended) at the empty file. -/
theorem analyze_file_empty_region_witness :
    ([] : List Nat).length ≤ FCR_PAGES * PAGE_SIZE ∧
      ((analyze_file []).ascii_percentage = 0 ∧
        (analyze_file []).content_type = "unknown") :=
  ⟨Nat.zero_le _, analyze_file_empty_region [] (Nat.zero_le _)⟩

/-! ### C9 — export headers -/

/-- C9 counterexample: on a concrete one-record list the XLSX header differs
from the CSV header — the XLSX exporter inserts a `raw_bytes` column third
that the CSV exporter does not write. -/
theorem export_headers_cex :
    csvHeaderFields [createRecord 1 2 [65, 66]] ≠
      excelHeaderFields [createRecord 1 2 [65, 66]] := by
  intro h
  have := congrArg (fun l => l.get? 2) h
  simp [csvHeaderFields, excelHeaderFields] at this

/-- C9 (amended): for every record list, the CSV header is the six standard
columns followed by the sorted union of extracted-field keys, and the XLSX
header lists exactly the same columns in the same order except that it
additionally inserts `raw_bytes` in third position. -/
theorem export_headers_relation (records : List BtrieveRecord) :
    csvHeaderFields records =
      ["record_num", "record_size", "decoded_text", "printable_chars",
       "has_digits", "has_alpha"] ++ sortedFieldNames records ∧
    excelHeaderFields records =
      ["record_num", "record_size", "raw_bytes", "decoded_text",
       "printable_chars", "has_digits", "has_alpha"] ++
        sortedFieldNames records ∧
    excelHeaderFields records =
      (csvHeaderFields records).take 2 ++ ["raw_bytes"] ++
        (csvHeaderFields records).drop 2 :=
  ⟨rfl, rfl, rfl⟩

/-! ### The detector loop (C1, C4) -/

theorem extract_records_pos_ok (file : List Nat) (R : Nat) (hR : 0 < R)
    (N : Option Nat) :
    extract_records file (R : Int) N =
      .ok (extractLoop R N (file.drop (FCR_PAGES * PAGE_SIZE)) 1) := by
  rw [extract_records, if_neg (by exact_mod_cast Nat.not_le.mpr hR)]
  norm_num

/-- The quality a candidate obtains inside the detector loop. -/
theorem qualityAt_eq (file : List Nat) (R : Nat) :
    qualityAt file R = calculateQualityScore
      (extractLoop R (some 100) (file.drop (FCR_PAGES * PAGE_SIZE)) 1) := rfl

/-- Invariant of the candidate loop: the final score dominates the running
score and every candidate's score; and either nothing was ever strictly
better (the accumulator is returned unchanged) or the result splits the
candidate list at the *first* size achieving the final score. -/
theorem detectLoop_spec (file : List Nat) :
    ∀ (l : List Nat) (bs : Nat) (bsc : ℚ), 0 ≤ bsc → (∀ R ∈ l, 0 < R) →
      bsc ≤ (detectLoop file l (bs, bsc)).2 ∧
      (∀ R ∈ l, qualityAt file R ≤ (detectLoop file l (bs, bsc)).2) ∧
      (detectLoop file l (bs, bsc) = (bs, bsc) ∨
        (bsc < (detectLoop file l (bs, bsc)).2 ∧
          qualityAt file (detectLoop file l (bs, bsc)).1 =
            (detectLoop file l (bs, bsc)).2 ∧
          ∃ l1 l2, l = l1 ++ (detectLoop file l (bs, bsc)).1 :: l2 ∧
            (∀ R ∈ l1, qualityAt file R < (detectLoop file l (bs, bsc)).2) ∧
            (∀ R ∈ l2, qualityAt file R ≤
              (detectLoop file l (bs, bsc)).2))) := by
  intro l
  induction l with
  | nil =>
    intro bs bsc h0 _
    refine ⟨le_refl _, by simp, Or.inl rfl⟩
  | cons R rest ih =>
    intro bs bsc h0 hpos
    have hR : 0 < R := hpos R (by simp)
    have hrest : ∀ S ∈ rest, 0 < S := fun S hS => hpos S (by simp [hS])
    rw [detectLoop, extract_records_pos_ok file R hR]
    set recs := extractLoop R (some 100) (file.drop (FCR_PAGES * PAGE_SIZE)) 1
      with hrecs
    dsimp only
    by_cases hnil : recs = []
    · -- the candidate yielded no records: skipped, and its score is 0
      have hq : qualityAt file R = 0 := by
        rw [qualityAt_eq, ← hrecs, hnil]
        simp [calculateQualityScore]
      rw [if_pos hnil]
      obtain ⟨ha, hb, hc⟩ := ih bs bsc h0 hrest
      refine ⟨ha, ?_, ?_⟩
      · intro S hS
        rcases List.mem_cons.mp hS with h | h
        · subst h
          rw [hq]
          exact le_trans h0 ha
        · exact hb S h
      · rcases hc with h | ⟨h1, h2, l1, l2, h3, h4, h5⟩
        · exact Or.inl h
        · refine Or.inr ⟨h1, h2, R :: l1, l2, by rw [List.cons_append, ← h3], ?_, h5⟩
          intro S hS
          rcases List.mem_cons.mp hS with h | h
          · subst h
            rw [hq]
            exact lt_of_le_of_lt h0 h1
          · exact h4 S h
    · -- the candidate yielded records and was scored
      have hqR : qualityAt file R = calculateQualityScore recs := by
        rw [qualityAt_eq, ← hrecs]
      rw [if_neg hnil]
      by_cases hlt : bsc < calculateQualityScore recs
      · rw [if_pos hlt]
        obtain ⟨ha, hb, hc⟩ := ih R (calculateQualityScore recs)
          (le_trans h0 hlt.le) hrest
        refine ⟨le_trans hlt.le ha, ?_, ?_⟩
        · intro S hS
          rcases List.mem_cons.mp hS with h | h
          · subst h
            rw [hqR]
            exact ha
          · exact hb S h
        · rcases hc with h | ⟨h1, h2, l1, l2, h3, h4, h5⟩
          · -- the recursion kept (R, score recs): R is the split point
            rw [h]
            refine Or.inr ⟨hlt, by exact hqR, [], rest, rfl, by simp, ?_⟩
            intro S hS
            have hSle := hb S hS
            rw [h] at hSle
            exact hSle
          · -- a later size beat R strictly
            refine Or.inr ⟨lt_trans hlt h1, h2, R :: l1, l2, by rw [List.cons_append, ← h3],
              ?_, h5⟩
            intro S hS
            rcases List.mem_cons.mp hS with h | h
            · subst h
              rw [hqR]
              exact h1
            · exact h4 S h
      · rw [if_neg hlt]
        push_neg at hlt
        obtain ⟨ha, hb, hc⟩ := ih bs bsc h0 hrest
        refine ⟨ha, ?_, ?_⟩
        · intro S hS
          rcases List.mem_cons.mp hS with h | h
          · subst h
            rw [hqR]
            exact le_trans hlt ha
          · exact hb S h
        · rcases hc with h | ⟨h1, h2, l1, l2, h3, h4, h5⟩
          · exact Or.inl h
          · refine Or.inr ⟨h1, h2, R :: l1, l2, by rw [List.cons_append, ← h3], ?_, h5⟩
            intro S hS
            rcases List.mem_cons.mp hS with h | h
            · subst h
              rw [hqR]
              exact lt_of_le_of_lt hlt h1
            · exact h4 S h

theorem qualityAt_nonneg (file : List Nat) (R : Nat) :
    0 ≤ qualityAt file R :=
  calculateQualityScore_nonneg _

theorem extract_records_fcrPad (d : List Nat) (R : Int) (N : Option Nat) :
    extract_records (fcrPad ++ d) R N =
      if R ≤ 0 then .error .validationError
      else .ok (extractLoop R.toNat N d 1) := by
  rw [extract_records, drop_fcrPad]

/-! ### Evaluation helpers for the detector

`decide` cannot evaluate ℚ arithmetic in the kernel (`Rat.normalize` runs
`Nat.gcd`, which is well-founded recursion), so concrete detector runs are
evaluated through the following small-step lemmas instead. -/

theorem detectLoop_cons_ok (file : List Nat) (R : Nat) (rest : List Nat)
    (bs : Nat) (bsc : ℚ) (recs : List BtrieveRecord)
    (h : extract_records file (R : Int) (some 100) = .ok recs)
    (hne : recs ≠ []) (sc : ℚ) (hsc : calculateQualityScore recs = sc) :
    detectLoop file (R :: rest) (bs, bsc) =
      if bsc < sc then detectLoop file rest (R, sc)
      else detectLoop file rest (bs, bsc) := by
  rw [detectLoop, h]
  dsimp only
  rw [if_neg hne, hsc]

theorem detectLoop_cons_skip (file : List Nat) (R : Nat) (rest : List Nat)
    (bs : Nat) (bsc : ℚ)
    (h : extract_records file (R : Int) (some 100) = .ok []) :
    detectLoop file (R :: rest) (bs, bsc) =
      detectLoop file rest (bs, bsc) := by
  rw [detectLoop, h]
  dsimp only
  rw [if_pos rfl]

theorem extractLoop_short (R : Nat) (N : Option Nat) (data : List Nat)
    (num : Nat) (h : data.length < R) : extractLoop R N data num = [] := by
  rw [extractLoop_unfold, if_neg]
  rintro ⟨-, h2, -⟩
  omega

theorem extract_skip (d : List Nat) (R : Nat) (hR : 0 < R)
    (h : d.length < R) :
    extract_records (fcrPad ++ d) (R : Int) (some 100) = .ok [] := by
  rw [extract_records_fcrPad,
    if_neg (by exact_mod_cast Nat.not_le.mpr hR)]
  have ht : ((R : Int)).toNat = R := by simp
  rw [ht, extractLoop_short R _ d 1 h]

theorem calculateQualityScore_eval (records : List BtrieveRecord)
    (hne : records ≠ []) (t d a : Nat) (ssum : ℚ)
    (ht : records.countP (fun r => !(pyStrip r.decoded_text).isEmpty) = t)
    (hd : records.countP (fun r => r.has_digits) = d)
    (ha : records.countP (fun r => r.has_alpha) = a)
    (hs : (records.map fun r => (r.printable_chars : ℚ)).sum = ssum) :
    calculateQualityScore records =
      ((t : ℚ) / records.length) * 30 + ((d : ℚ) / records.length) * 20 +
        ((a : ℚ) / records.length) * 20 +
        min (ssum / records.length / 50) 1 * 30 := by
  rw [calculateQualityScore, if_neg hne]
  dsimp only
  rw [ht, hd, ha, hs]

/-! Concrete detector runs on three test files. -/

theorem extractNul32 :
    extract_records (fcrPad ++ List.replicate 32 0) ((32 : Nat) : Int)
      (some 100) = .ok [createRecord 1 32 (List.replicate 32 0)] := by
  rw [extract_records_fcrPad, if_neg (by decide),
    extractLoop_unfold, if_pos (by decide),
    extractLoop_unfold, if_neg (by decide)]
  decide

theorem scoreNul32 :
    calculateQualityScore [createRecord 1 32 (List.replicate 32 0)] = 0 := by
  have hpc : (createRecord 1 32 (List.replicate 32 0)).printable_chars = 0 :=
    by decide
  have hsum : (([createRecord 1 32 (List.replicate 32 0)]).map
      fun r => (r.printable_chars : ℚ)).sum = 0 := by
    rw [List.map_cons, List.map_nil, List.sum_cons, List.sum_nil, hpc]
    norm_num
  rw [calculateQualityScore_eval _ (by simp) 0 0 0 0 (by decide) (by decide)
    (by decide) hsum]
  norm_num [min_def]

theorem detectNul32 :
    detect_record_size (fcrPad ++ List.replicate 32 0) =
      .error .dataError := by
  have hloop : detectLoop (fcrPad ++ List.replicate 32 0)
      COMMON_RECORD_SIZES (64, 0) = (64, 0) := by
    rw [COMMON_RECORD_SIZES,
      detectLoop_cons_ok _ 32 _ 64 0 _ extractNul32 (by simp) 0 scoreNul32,
      if_neg (by norm_num),
      detectLoop_cons_skip _ 64 _ _ _ (extract_skip _ 64 (by norm_num)
        (by simp)),
      detectLoop_cons_skip _ 128 _ _ _ (extract_skip _ 128 (by norm_num)
        (by simp)),
      detectLoop_cons_skip _ 256 _ _ _ (extract_skip _ 256 (by norm_num)
        (by simp)),
      detectLoop_cons_skip _ 512 _ _ _ (extract_skip _ 512 (by norm_num)
        (by simp)),
      detectLoop_cons_skip _ 1024 _ _ _ (extract_skip _ 1024 (by norm_num)
        (by simp)),
      detectLoop]
  simp only [detect_record_size]
  rw [hloop, if_pos rfl]

theorem extractA32 :
    extract_records (fcrPad ++ List.replicate 32 65) ((32 : Nat) : Int)
      (some 100) = .ok [createRecord 1 32 (List.replicate 32 65)] := by
  rw [extract_records_fcrPad, if_neg (by decide),
    extractLoop_unfold, if_pos (by decide),
    extractLoop_unfold, if_neg (by decide)]
  decide

theorem scoreA32 :
    calculateQualityScore [createRecord 1 32 (List.replicate 32 65)] =
      346 / 5 := by
  have hpc : (createRecord 1 32 (List.replicate 32 65)).printable_chars = 32 :=
    by decide
  have hsum : (([createRecord 1 32 (List.replicate 32 65)]).map
      fun r => (r.printable_chars : ℚ)).sum = 32 := by
    rw [List.map_cons, List.map_nil, List.sum_cons, List.sum_nil, hpc]
    norm_num
  rw [calculateQualityScore_eval _ (by simp) 1 0 1 32 (by decide) (by decide)
    (by decide) hsum]
  norm_num [min_def]

theorem detectA32 :
    detect_record_size (fcrPad ++ List.replicate 32 65) =
      .ok (32, 173 / 250) := by
  have hloop : detectLoop (fcrPad ++ List.replicate 32 65)
      COMMON_RECORD_SIZES (64, 0) = (32, 346 / 5) := by
    rw [COMMON_RECORD_SIZES,
      detectLoop_cons_ok _ 32 _ 64 0 _ extractA32 (by simp) (346 / 5)
        scoreA32,
      if_pos (by norm_num),
      detectLoop_cons_skip _ 64 _ _ _ (extract_skip _ 64 (by norm_num)
        (by simp)),
      detectLoop_cons_skip _ 128 _ _ _ (extract_skip _ 128 (by norm_num)
        (by simp)),
      detectLoop_cons_skip _ 256 _ _ _ (extract_skip _ 256 (by norm_num)
        (by simp)),
      detectLoop_cons_skip _ 512 _ _ _ (extract_skip _ 512 (by norm_num)
        (by simp)),
      detectLoop_cons_skip _ 1024 _ _ _ (extract_skip _ 1024 (by norm_num)
        (by simp)),
      detectLoop]
  simp only [detect_record_size]
  rw [hloop, if_neg (by norm_num)]
  norm_num

theorem extractB32 :
    extract_records (fcrPad ++ List.replicate 64 66) ((32 : Nat) : Int)
      (some 100) = .ok [createRecord 1 32 (List.replicate 32 66),
        createRecord 2 32 (List.replicate 32 66)] := by
  rw [extract_records_fcrPad, if_neg (by decide),
    extractLoop_unfold, if_pos (by decide),
    extractLoop_unfold, if_pos (by decide),
    extractLoop_unfold, if_neg (by decide)]
  decide

theorem extractB64 :
    extract_records (fcrPad ++ List.replicate 64 66) ((64 : Nat) : Int)
      (some 100) = .ok [createRecord 1 64 (List.replicate 64 66)] := by
  rw [extract_records_fcrPad, if_neg (by decide),
    extractLoop_unfold, if_pos (by decide),
    extractLoop_unfold, if_neg (by decide)]
  decide

theorem scoreB32 :
    calculateQualityScore [createRecord 1 32 (List.replicate 32 66),
      createRecord 2 32 (List.replicate 32 66)] = 346 / 5 := by
  have hpc : (createRecord 1 32 (List.replicate 32 66)).printable_chars = 32 :=
    by decide
  have hpc2 : (createRecord 2 32 (List.replicate 32 66)).printable_chars = 32 :=
    by decide
  have hsum : (([createRecord 1 32 (List.replicate 32 66),
      createRecord 2 32 (List.replicate 32 66)]).map
      fun r => (r.printable_chars : ℚ)).sum = 64 := by
    rw [List.map_cons, List.map_cons, List.map_nil, List.sum_cons,
      List.sum_cons, List.sum_nil, hpc, hpc2]
    norm_num
  rw [calculateQualityScore_eval _ (by simp) 2 0 2 64 (by decide) (by decide)
    (by decide) hsum]
  norm_num [min_def]

theorem scoreB64 :
    calculateQualityScore [createRecord 1 64 (List.replicate 64 66)] = 80 := by
  have hpc : (createRecord 1 64 (List.replicate 64 66)).printable_chars = 64 :=
    by decide
  have hsum : (([createRecord 1 64 (List.replicate 64 66)]).map
      fun r => (r.printable_chars : ℚ)).sum = 64 := by
    rw [List.map_cons, List.map_nil, List.sum_cons, List.sum_nil, hpc]
    norm_num
  rw [calculateQualityScore_eval _ (by simp) 1 0 1 64 (by decide) (by decide)
    (by decide) hsum]
  norm_num [min_def]

theorem detectB64 :
    detect_record_size (fcrPad ++ List.replicate 64 66) =
      .ok (64, 4 / 5) := by
  have hloop : detectLoop (fcrPad ++ List.replicate 64 66)
      COMMON_RECORD_SIZES (64, 0) = (64, 80) := by
    rw [COMMON_RECORD_SIZES,
      detectLoop_cons_ok _ 32 _ 64 0 _ extractB32 (by simp) (346 / 5)
        scoreB32,
      if_pos (by norm_num),
      detectLoop_cons_ok _ 64 _ 32 (346 / 5) _ extractB64 (by simp) 80
        scoreB64,
      if_pos (by norm_num),
      detectLoop_cons_skip _ 128 _ _ _ (extract_skip _ 128 (by norm_num)
        (by simp)),
      detectLoop_cons_skip _ 256 _ _ _ (extract_skip _ 256 (by norm_num)
        (by simp)),
      detectLoop_cons_skip _ 512 _ _ _ (extract_skip _ 512 (by norm_num)
        (by simp)),
      detectLoop_cons_skip _ 1024 _ _ _ (extract_skip _ 1024 (by norm_num)
        (by simp)),
      detectLoop]
  simp only [detect_record_size]
  rw [hloop, if_neg (by norm_num)]
  norm_num

/-! ### C1 — when the detector fails, and what it returns -/

/-- C1 counterexample: on a file whose data region is 32 NUL bytes, the
candidate size 32 *does* yield a record, yet the detector still fails with a
data error, because that record set scores `0.0` — refuting "fails iff no
candidate yields any record". -/
theorem detect_record_size_zero_quality_cex :
    detect_record_size (fcrPad ++ List.replicate 32 0) = .error .dataError ∧
      extract_records (fcrPad ++ List.replicate 32 0) ((32 : Nat) : Int)
          (some 100) =
        .ok [createRecord 1 32 (List.replicate 32 0)] :=
  ⟨detectNul32, extractNul32⟩

/-- C1 (amended): the detector fails with a data error iff every candidate
size obtains quality score `0` (it yields no records, or only records that
score `0.0`); in every other case it returns `(best_R, best_score / 100)`
where `best_score` is the maximal candidate score. -/
theorem detect_record_size_outcome (file : List Nat) :
    (detect_record_size file = .error .dataError ↔
      ∀ R ∈ COMMON_RECORD_SIZES, qualityAt file R = 0) ∧
    (∀ r s, detect_record_size file = .ok (r, s) →
      r ∈ COMMON_RECORD_SIZES ∧ s = qualityAt file r / 100 ∧
      ∀ R ∈ COMMON_RECORD_SIZES, qualityAt file R ≤ qualityAt file r) := by
  obtain ⟨ha, hb, hc⟩ :=
    detectLoop_spec file COMMON_RECORD_SIZES 64 0 le_rfl (by decide)
  set p := detectLoop file COMMON_RECORD_SIZES (64, 0) with hp
  constructor
  · constructor
    · intro herr R hR
      simp only [detect_record_size] at herr
      rw [← hp] at herr
      by_cases h2 : p.2 = 0
      · exact le_antisymm (h2 ▸ hb R hR) (qualityAt_nonneg file R)
      · rw [if_neg h2] at herr
        simp at herr
    · intro hall
      simp only [detect_record_size]
      rw [← hp]
      have h2 : p.2 = 0 := by
        rcases hc with h | ⟨h1, hq, l1, l2, h3, _, _⟩
        · rw [h]
        · exfalso
          have hmem : p.1 ∈ COMMON_RECORD_SIZES := by
            rw [h3]
            simp
          rw [hall _ hmem] at hq
          rw [← hq] at h1
          exact lt_irrefl 0 h1
      rw [if_pos h2]
  · intro r s hok
    simp only [detect_record_size] at hok
    rw [← hp] at hok
    by_cases h2 : p.2 = 0
    · rw [if_pos h2] at hok
      simp at hok
    · rw [if_neg h2] at hok
      rw [Except.ok.injEq, Prod.mk.injEq] at hok
      obtain ⟨hr, hs⟩ := hok
      rcases hc with h | ⟨h1, hq, l1, l2, h3, h4, h5⟩
      · rw [h] at h2
        simp at h2
      · have hmem : p.1 ∈ COMMON_RECORD_SIZES := by
          rw [h3]
          simp
        refine ⟨hr ▸ hmem, ?_, ?_⟩
        · rw [← hs, ← hr, hq]
        · intro R hR
          rw [← hr, hq]
          exact hb R hR

/-- Witness for C1 on a file whose data region is 32 `'A'` bytes: the
detector succeeds with `(32, 69.2 / 100)`. -/
theorem detect_record_size_outcome_witness :
    detect_record_size (fcrPad ++ List.replicate 32 65) =
        .ok (32, 173 / 250) ∧
      (32 ∈ COMMON_RECORD_SIZES ∧
        (173 / 250 : ℚ) =
          qualityAt (fcrPad ++ List.replicate 32 65) 32 / 100 ∧
        ∀ R ∈ COMMON_RECORD_SIZES,
          qualityAt (fcrPad ++ List.replicate 32 65) R ≤
            qualityAt (fcrPad ++ List.replicate 32 65) 32) :=
  ⟨detectA32,
   (detect_record_size_outcome (fcrPad ++ List.replicate 32 65)).2
     32 (173 / 250) detectA32⟩

/-! ### C4 — the tie-break returns the earliest maximal candidate -/

/-- C4: when the detector succeeds, the returned size attains the maximal
quality score among the candidates, and any candidate attaining the same
score is at least as large — so on ties the earliest size in the fixed
ascending iteration order `[32, 64, 128, 256, 512, 1024]` wins, because only
a strictly greater score replaces the current best. -/
theorem detect_record_size_first_max (file : List Nat) (r : Nat) (s : ℚ)
    (h : detect_record_size file = .ok (r, s)) :
    r ∈ COMMON_RECORD_SIZES ∧
      (∀ R ∈ COMMON_RECORD_SIZES,
        qualityAt file R ≤ qualityAt file r) ∧
      (∀ R ∈ COMMON_RECORD_SIZES,
        qualityAt file R = qualityAt file r → r ≤ R) := by
  obtain ⟨ha, hb, hc⟩ :=
    detectLoop_spec file COMMON_RECORD_SIZES 64 0 le_rfl (by decide)
  set p := detectLoop file COMMON_RECORD_SIZES (64, 0) with hp
  simp only [detect_record_size] at h
  rw [← hp] at h
  by_cases h2 : p.2 = 0
  · rw [if_pos h2] at h
    simp at h
  · rw [if_neg h2] at h
    rw [Except.ok.injEq, Prod.mk.injEq] at h
    obtain ⟨hr, hs⟩ := h
    rcases hc with hfl | ⟨h1, hq, l1, l2, h3, h4, h5⟩
    · rw [hfl] at h2
      simp at h2
    · have hmem : p.1 ∈ COMMON_RECORD_SIZES := by
        rw [h3]
        simp
      have hsorted : List.Pairwise (· ≤ ·) COMMON_RECORD_SIZES := by decide
      rw [h3] at hsorted
      have hl2 : ∀ R ∈ l2, p.1 ≤ R :=
        (List.pairwise_cons.mp (List.pairwise_append.mp hsorted).2.1).1
      refine ⟨hr ▸ hmem, ?_, ?_⟩
      · intro R hR
        rw [← hr, hq]
        exact hb R hR
      · intro R hR heq
        rw [← hr] at heq ⊢
        rw [hq] at heq
        rw [h3] at hR
        rcases List.mem_append.mp hR with hR1 | hR2
        · exact absurd heq (ne_of_lt (h4 R hR1))
        · rcases List.mem_cons.mp hR2 with hR3 | hR4
          · exact le_of_eq hR3.symm
          · exact hl2 R hR4

/-- Witness for C4 on a file whose data region is 64 `'B'` bytes: sizes 32
and 64 both yield records (scores 69.2 and 80), and the detector returns
`(64, 80 / 100)`. -/
theorem detect_record_size_first_max_witness :
    detect_record_size (fcrPad ++ List.replicate 64 66) = .ok (64, 4 / 5) ∧
      (64 ∈ COMMON_RECORD_SIZES ∧
        (∀ R ∈ COMMON_RECORD_SIZES,
          qualityAt (fcrPad ++ List.replicate 64 66) R ≤
            qualityAt (fcrPad ++ List.replicate 64 66) 64) ∧
        (∀ R ∈ COMMON_RECORD_SIZES,
          qualityAt (fcrPad ++ List.replicate 64 66) R =
              qualityAt (fcrPad ++ List.replicate 64 66) 64 → 64 ≤ R)) :=
  ⟨detectB64,
   detect_record_size_first_max (fcrPad ++ List.replicate 64 66)
     64 (4 / 5) detectB64⟩

/-! ### C5 — field descriptors are disjoint, increasing and in range -/

/-- The offset below which every already-emitted field must end: the start of
the open run when there is one, the cursor position otherwise. -/
def runFrontier (cur : Option (Nat × String)) (pos : Nat) : Nat :=
  match cur with
  | some sc => sc.1
  | none => pos

theorem createFieldInfo_spec (start_pos length : Nat) (ft : Option String)
    (stats : Nat → PosStats) (fi : FieldInfo)
    (h : createFieldInfo start_pos length ft stats = some fi) :
    fi.position = start_pos ∧ fi.length = length ∧ 1 ≤ length := by
  cases ft with
  | none => exact absurd h (by simp [createFieldInfo])
  | some ftype =>
    rw [createFieldInfo] at h
    dsimp only at h
    by_cases hl : length < 1
    · rw [if_pos hl] at h
      exact absurd h (by simp)
    · rw [if_neg hl] at h
      split_ifs at h with htr
      have h2 := (Option.some.inj h).symm
      exact ⟨by rw [h2], by rw [h2], by omega⟩

theorem closeRun_facts (stats : Nat → PosStats) (fields : List FieldInfo)
    (start stop : Nat) (ctype : String)
    (hfr : ∀ fi ∈ fields, 1 ≤ fi.length ∧ fi.position + fi.length ≤ start)
    (hpw : List.Pairwise (fun a b => a.position + a.length ≤ b.position)
      fields)
    (hss : start ≤ stop) :
    List.Pairwise (fun a b => a.position + a.length ≤ b.position)
        (closeRun stats fields start stop ctype) ∧
      ∀ fi ∈ closeRun stats fields start stop ctype,
        1 ≤ fi.length ∧ fi.position + fi.length ≤ stop := by
  rw [closeRun]
  by_cases h0 : 0 < stop - start
  · rw [if_pos h0]
    cases hcf : createFieldInfo start (stop - start) (some ctype) stats with
    | none =>
      exact ⟨hpw, fun fi hfi =>
        ⟨(hfr fi hfi).1, le_trans (hfr fi hfi).2 hss⟩⟩
    | some fi =>
      obtain ⟨hp, hl, h1⟩ := createFieldInfo_spec _ _ _ _ _ hcf
      constructor
      · rw [List.pairwise_append]
        refine ⟨hpw, List.pairwise_singleton _ _, ?_⟩
        intro a ha b hb
        rw [List.mem_singleton.mp hb, hp]
        exact (hfr a ha).2
      · intro g hg
        rcases List.mem_append.mp hg with hg1 | hg2
        · exact ⟨(hfr g hg1).1, le_trans (hfr g hg1).2 hss⟩
        · rw [List.mem_singleton.mp hg2, hp, hl]
          omega
  · rw [if_neg h0]
    exact ⟨hpw, fun fi hfi =>
      ⟨(hfr fi hfi).1, le_trans (hfr fi hfi).2 hss⟩⟩

theorem segGo_spec (stats : Nat → PosStats) (R : Nat) :
    ∀ (n pos : Nat) (fields : List FieldInfo) (cur : Option (Nat × String)),
      pos + n = R →
      (∀ s ct, cur = some (s, ct) → s < pos) →
      (∀ fi ∈ fields, 1 ≤ fi.length ∧
        fi.position + fi.length ≤ runFrontier cur pos) →
      List.Pairwise (fun a b => a.position + a.length ≤ b.position) fields →
      List.Pairwise (fun a b => a.position + a.length ≤ b.position)
          (segGo stats R n pos fields cur) ∧
        ∀ fi ∈ segGo stats R n pos fields cur,
          1 ≤ fi.length ∧ fi.position + fi.length ≤ R := by
  intro n
  induction n with
  | zero =>
    intro pos fields cur hn hcur hfr hpw
    have hpR : pos = R := by omega
    subst hpR
    cases cur with
    | none =>
      simp only [segGo]
      refine ⟨hpw, fun fi hfi => ⟨(hfr fi hfi).1, ?_⟩⟩
      have h2 := (hfr fi hfi).2
      simpa [runFrontier] using h2
    | some sc =>
      obtain ⟨s, ct⟩ := sc
      have hs : s < pos := hcur s ct rfl
      have hfrs : ∀ fi ∈ fields, 1 ≤ fi.length ∧
          fi.position + fi.length ≤ s := by
        intro fi hfi
        have h2 := (hfr fi hfi).2
        simp only [runFrontier] at h2
        exact ⟨(hfr fi hfi).1, h2⟩
      simp only [segGo]
      exact closeRun_facts stats fields s pos ct hfrs hpw (by omega)
  | succ n ih =>
    intro pos fields cur hn hcur hfr hpw
    cases cur with
    | none =>
      simp only [segGo]
      by_cases ht : posTypeAt stats pos = "null_padding"
      · rw [if_neg (not_not_intro ht)]
        refine ih (pos + 1) fields none (by omega)
          (by intro s ct hcontra; cases hcontra) ?_ hpw
        intro fi hfi
        have h2 := (hfr fi hfi).2
        simp only [runFrontier] at h2 ⊢
        exact ⟨(hfr fi hfi).1, by omega⟩
      · rw [if_pos ht]
        refine ih (pos + 1) fields (some (pos, posTypeAt stats pos))
          (by omega) ?_ ?_ hpw
        · intro s ct heq
          simp only [Option.some.injEq, Prod.mk.injEq] at heq
          obtain ⟨h1, -⟩ := heq
          omega
        · intro fi hfi
          have h2 := (hfr fi hfi).2
          simp only [runFrontier] at h2 ⊢
          exact ⟨(hfr fi hfi).1, h2⟩
    | some sc =>
      obtain ⟨s, ct⟩ := sc
      have hs : s < pos := hcur s ct rfl
      have hfrs : ∀ fi ∈ fields, 1 ≤ fi.length ∧
          fi.position + fi.length ≤ s := by
        intro fi hfi
        have h2 := (hfr fi hfi).2
        simp only [runFrontier] at h2
        exact ⟨(hfr fi hfi).1, h2⟩
      simp only [segGo]
      by_cases hcond : posTypeAt stats pos = "null_padding" ∨
          posTypeAt stats pos ≠ ct
      · rw [if_pos hcond]
        obtain ⟨hpw', hfr'⟩ :=
          closeRun_facts stats fields s pos ct hfrs hpw (by omega)
        by_cases ht : posTypeAt stats pos = "null_padding"
        · rw [if_neg (not_not_intro ht)]
          refine ih (pos + 1) _ none (by omega)
            (by intro s' ct' hcontra; cases hcontra) ?_ hpw'
          intro fi hfi
          simp only [runFrontier]
          exact ⟨(hfr' fi hfi).1, by have := (hfr' fi hfi).2; omega⟩
        · rw [if_pos ht]
          refine ih (pos + 1) _ (some (pos, posTypeAt stats pos))
            (by omega) ?_ ?_ hpw'
          · intro s' ct' heq
            simp only [Option.some.injEq, Prod.mk.injEq] at heq
            obtain ⟨h1, -⟩ := heq
            omega
          · intro fi hfi
            simp only [runFrontier]
            exact ⟨(hfr' fi hfi).1, (hfr' fi hfi).2⟩
      · rw [if_neg hcond]
        refine ih (pos + 1) fields (some (s, ct)) (by omega) ?_ ?_ hpw
        · intro s' ct' heq
          simp only [Option.some.injEq, Prod.mk.injEq] at heq
          obtain ⟨h1, -⟩ := heq
          omega
        · intro fi hfi
          have h2 := (hfr fi hfi).2
          simp only [runFrontier] at h2 ⊢
          exact ⟨(hfr fi hfi).1, h2⟩

/-- C5: for every record set handed to the positional field boundary
detector, the returned field descriptors are pairwise disjoint and strictly
increasing (`fields[i].position + fields[i].length ≤ fields[j].position` for
`i < j`), and every descriptor has `length ≥ 1` and
`position + length ≤ record_size` (`position ≥ 0` holds by the type). -/
theorem detect_fields_disjoint (records : List BtrieveRecord)
    (record_size : Nat) :
    List.Pairwise (fun a b => a.position + a.length ≤ b.position)
        (detectFields (analyzeFieldPatterns records) record_size) ∧
      ∀ fi ∈ detectFields (analyzeFieldPatterns records) record_size,
        1 ≤ fi.length ∧ fi.position + fi.length ≤ record_size := by
  exact segGo_spec (analyzeFieldPatterns records) record_size record_size 0
    [] none (by omega)
    (by intro s ct hcontra; cases hcontra) (by simp) List.Pairwise.nil

/-- Witness for C5 at a concrete two-record set (an alpha field, NUL padding,
then a digit field). -/
theorem detect_fields_disjoint_witness :
    List.Pairwise (fun a b => a.position + a.length ≤ b.position)
        (detectFields (analyzeFieldPatterns
          [createRecord 1 8 [65, 66, 0, 0, 49, 50, 51, 52],
           createRecord 2 8 [67, 68, 0, 0, 53, 54, 55, 56]]) 8) ∧
      ∀ fi ∈ detectFields (analyzeFieldPatterns
          [createRecord 1 8 [65, 66, 0, 0, 49, 50, 51, 52],
           createRecord 2 8 [67, 68, 0, 0, 53, 54, 55, 56]]) 8,
        1 ≤ fi.length ∧ fi.position + fi.length ≤ 8 :=
  detect_fields_disjoint
    [createRecord 1 8 [65, 66, 0, 0, 49, 50, 51, 52],
     createRecord 2 8 [67, 68, 0, 0, 53, 54, 55, 56]] 8

/-- Witness for C9 (amended) at a concrete one-record list. -/
theorem export_headers_relation_witness :
    excelHeaderFields [createRecord 3 2 [49, 50]] =
      (csvHeaderFields [createRecord 3 2 [49, 50]]).take 2 ++
        ["raw_bytes"] ++ (csvHeaderFields [createRecord 3 2 [49, 50]]).drop 2 :=
  (export_headers_relation [createRecord 3 2 [49, 50]]).2.2

end BtrTools
